import Mathlib

/-!
Shallow embedding of the shield_compatibility plugin of the unmanic-plugins
repository (source files: source/shield_compatibility/lib/ffmpeg/probe.py,
which contains both the Probe class and the StreamMapper class, and
source/shield_compatibility/plugin.py), together with theorems settling the
specification claims about that code.

Machine integers of the source are modelled as Nat or Int; Python strings
are Lean strings; Python dictionaries parsed from JSON are modelled as
association lists without duplicate keys (real dictionaries cannot hold
duplicate keys); code that can raise returns Except or Option.
-/

/-! Python string membership: the test of the form needle in hay on strings
is a contiguous substring test. chStarts tests whether the first list is an
initial run of the second; chIn scans every suffix. -/

def chStarts : List Char → List Char → Bool
  | [], _ => true
  | _ :: _, [] => false
  | a :: as, b :: bs => (a == b) && chStarts as bs

def chIn (n : List Char) : List Char → Bool
  | [] => n.isEmpty
  | b :: bs => chStarts n (b :: bs) || chIn n bs

def strIn (needle hay : String) : Bool := chIn needle.data hay.data

/-- Python lower() on a string, written over the character list. -/
def pyLower (t : String) : String := String.mk (t.data.map Char.toLower)

/-- A value inside a probed JSON dictionary: either a scalar (held as the
string the probing tool prints) or one nested dictionary of string pairs. -/
inductive JVal where
  | s (v : String)
  | d (entries : List (String × String))
deriving DecidableEq

def JVal.isDict : JVal → Bool
  | .s _ => false
  | .d _ => true

def JVal.strVal : JVal → String
  | .s v => v
  | .d _ => ""

def JVal.dictEntries : JVal → List (String × String)
  | .s _ => []
  | .d es => es

/-- Python membership test applied to a dictionary value: a substring test
when the value is a string, an exact key membership test when it is a
dictionary. -/
def JVal.pyMem (needle : String) : JVal → Bool
  | .s v => strIn needle v
  | .d es => es.any (fun p => decide (p.1 = needle))

/-- One probed stream: the dictionary ffprobe reports for it. -/
abbrev PStream := List (String × JVal)

/-- Dictionary get: the value stored under a key, if present. -/
def pGet (s : PStream) (k : String) : Option JVal :=
  (s.find? (fun q => decide (q.1 = k))).map (fun q => q.2)

/-- Python dictionary single-key write: replace the value in place when the
key exists, append a fresh entry otherwise. -/
def dinsert (d : List (String × String)) (k v : String) : List (String × String) :=
  if d.any (fun p => decide (p.1 = k)) then
    d.map (fun p => if p.1 = k then (k, v) else p)
  else d ++ [(k, v)]

/-- Python dict.update: fold every entry of the second dictionary into the
first, later writes shadowing earlier values of the same key. -/
def dupdate (d e : List (String × String)) : List (String × String) :=
  e.foldl (fun acc p => dinsert acc p.1 p.2) d

/-! Probe model (probe.py).  The operating system, the mimetypes table, the
ffprobe child process and the JSON parser are external collaborators; they
enter the embedding as an explicit environment record. -/

/-- Outcome of one child process run: its exit status, and its combined
output if it decodes as UTF-8 (none models undecodable bytes). -/
structure ProcResult where
  returncode : Int
  out : Option String
deriving DecidableEq

/-- The parsed probe dictionary: the format dictionary and the stream list. -/
structure ProbeData where
  format : List (String × JVal)
  streams : List PStream
deriving DecidableEq

def emptyProbe : ProbeData := { format := [], streams := [] }

structure ProbeState where
  probe_info : ProbeData
deriving DecidableEq

def initProbeState : ProbeState := { probe_info := emptyProbe }

/-- External collaborators of the Probe class: file existence, the mimetype
guess for a path (with the override table already applied), the subprocess
runner, and the JSON parser for the raw ffprobe output. -/
structure ProbeEnv where
  pathExists : String → Bool
  guessType : String → Option String
  run : List String → ProcResult
  parseJson : String → Option ProbeData

/-- The category of a mimetype string: the part before the first slash
(the whole string when no slash occurs), as Python split of the string on
the slash, first element. -/
def mimeCategory (t : String) : String :=
  String.mk (t.data.takeWhile (fun c => !(c == '/')))

/-- Probe.__test_valid_mimetype: guess the mimetype from the path; fail when
none is found or when its category (the part before the slash) is outside
the allowed list. -/
def testValidMimetype (env : ProbeEnv) (allowed : List String) (p : String) : Bool :=
  match env.guessType p with
  | none => false
  | some t => decide (mimeCategory t ∈ allowed)

/-- ffprobe_cmd: run ffprobe with the given parameters; fail when the output
does not decode, when the exit status equals 1 or the text error occurs in
the decoded output, or when the output is empty; otherwise return the raw
decoded output. -/
def ffprobe_cmd (env : ProbeEnv) (params : List String) : Except String String :=
  let pr := env.run ("ffprobe" :: params)
  match pr.out with
  | none => .error "unable to decode subprocess output"
  | some raw =>
    if pr.returncode = 1 ∨ strIn "error" raw = true then .error raw
    else if raw = "" then .error "No info found"
    else .ok raw

def ffprobeParams (p : String) : List String :=
  ["-loglevel", "quiet", "-print_format", "json", "-show_format",
   "-show_streams", "-show_error", p]

/-- ffprobe_file: run ffprobe_cmd on the standard parameter list and parse
the JSON it prints; a parse failure is converted into the same error kind. -/
def ffprobe_file (env : ProbeEnv) (p : String) : Except String ProbeData :=
  match ffprobe_cmd env (ffprobeParams p) with
  | .error e => .error e
  | .ok results =>
    match env.parseJson results with
    | some info => .ok info
    | none => .error "unable to parse ffprobe output"

/-- Probe.file: reset the stored probe dictionary, then fail softly (false)
when the file does not exist, when the mimetype test fails, or when
ffprobe_file reports an error; on success store the parsed data and return
true.  The Python method returns True or None; None is modelled as false. -/
def Probe.file (env : ProbeEnv) (allowed : List String) (st : ProbeState)
    (p : String) : ProbeState × Bool :=
  let st1 : ProbeState := { st with probe_info := emptyProbe }
  if env.pathExists p = false then (st1, false)
  else if testValidMimetype env allowed p = false then (st1, false)
  else
    match ffprobe_file env p with
    | .ok info => ({ st1 with probe_info := info }, true)
    | .error _ => (st1, false)

/-- The filename recorded in adopted probe data, read with
probe_info.get of format, then get of filename; a missing or non-string
entry yields the empty string, which Python treats as falsy. -/
def pdFilename (pd : ProbeData) : String :=
  match pGet pd.format "filename" with
  | some (.s v) => v
  | _ => ""

/-- Probe.set_probe: adopt probe data computed elsewhere.  Fails softly
(none) when the filename entry is missing or when the mimetype test on that
filename fails; otherwise store and return the data. -/
def Probe.set_probe (env : ProbeEnv) (allowed : List String) (st : ProbeState)
    (pinfo : ProbeData) : ProbeState × Option ProbeData :=
  if pdFilename pinfo = "" then (st, none)
  else if testValidMimetype env allowed (pdFilename pinfo) = false then (st, none)
  else ({ st with probe_info := pinfo }, some pinfo)

/-- Probe.get_probe: return the stored probe dictionary. -/
def Probe.get_probe (st : ProbeState) : ProbeData := st.probe_info

/-! StreamMapper model (the stream_mapper part of probe.py). -/

/-- The five recognized stream kinds of stream_type_idents. -/
inductive StreamKind where
  | video
  | audio
  | subtitle
  | data
  | attachment
deriving DecidableEq

/-- The codec_type string naming a kind. -/
def kindName : StreamKind → String
  | .video => "video"
  | .audio => "audio"
  | .subtitle => "subtitle"
  | .data => "data"
  | .attachment => "attachment"

/-- stream_type_idents: the one-letter ffmpeg specifier of a kind. -/
def kindIdent : StreamKind → String
  | .video => "v"
  | .audio => "a"
  | .subtitle => "s"
  | .data => "d"
  | .attachment => "t"

/-- The dictionary a custom_stream_mapping hook returns (its shape, once the
runtime shape checks of __apply_custom_stream_mapping have passed). -/
structure MappingDict where
  stream_mapping : List String
  stream_encoding : List String
deriving DecidableEq

/-- Mutable state of one __set_stream_mapping pass: the five per-kind
counters, the two directive lists, and the local flag recording that some
stream was routed to a custom mapping. -/
structure MapState where
  video_count : Nat
  audio_count : Nat
  subtitle_count : Nat
  data_count : Nat
  attachment_count : Nat
  stream_mapping : List String
  stream_encoding : List String
  found : Bool
deriving DecidableEq

def initMapState : MapState :=
  { video_count := 0, audio_count := 0, subtitle_count := 0, data_count := 0,
    attachment_count := 0, stream_mapping := [], stream_encoding := [],
    found := false }

def kindCount (st : MapState) : StreamKind → Nat
  | .video => st.video_count
  | .audio => st.audio_count
  | .subtitle => st.subtitle_count
  | .data => st.data_count
  | .attachment => st.attachment_count

/-- stream_info.get of codec_type with default empty string, lower-cased.
A dictionary stored under codec_type would crash the Python (no lower
attribute); probed data never holds one, and it is treated as empty here. -/
def ctOf (s : PStream) : String :=
  match pGet s "codec_type" with
  | some (.s v) => pyLower v
  | _ => ""

/-- The kind the mapping loop recognizes for a stream, following the
if/elif chain over the lower-cased codec_type. -/
def recognizedKind (s : PStream) : Option StreamKind :=
  if ctOf s = "video" then some .video
  else if ctOf s = "audio" then some .audio
  else if ctOf s = "subtitle" then some .subtitle
  else if ctOf s = "data" then some .data
  else if ctOf s = "attachment" then some .attachment
  else none

/-- __copy_stream_mapping: append the map directive and the copy encoding
directive for the given one-letter specifier and type-relative index. -/
def copyInto (st : MapState) (tid : String) (idx : Nat) : MapState :=
  { st with
    stream_mapping := st.stream_mapping ++ ["-map", "0:" ++ tid ++ ":" ++ toString idx],
    stream_encoding := st.stream_encoding ++ ["-c:" ++ tid ++ ":" ++ toString idx, "copy"] }

/-- __apply_custom_stream_mapping: append both directive lists of a
well-shaped custom mapping dictionary. -/
def applyCustom (st : MapState) (m : MappingDict) : MapState :=
  { st with
    stream_mapping := st.stream_mapping ++ m.stream_mapping,
    stream_encoding := st.stream_encoding ++ m.stream_encoding }

/-- The body of the per-stream loop of __set_stream_mapping, translated
branch for branch: five symmetric if/elif arms keyed on the lower-cased
codec_type, each deciding copy versus custom mapping and advancing its own
counter; a stream of no recognized kind changes nothing.  The test hook is
test_stream_needs_processing and the custom hook is custom_stream_mapping;
a hook result of none models a falsy return value. -/
def mapStep (pst : List String) (test : PStream → Bool)
    (custom : PStream → Nat → Option MappingDict) (st : MapState) (s : PStream) : MapState :=
  if ctOf s = "video" then
    if "video" ∈ pst then
      if test s = false then
        { copyInto st "v" st.video_count with video_count := st.video_count + 1 }
      else
        match custom s st.video_count with
        | some m => { applyCustom st m with found := true, video_count := st.video_count + 1 }
        | none => { copyInto st "v" st.video_count with video_count := st.video_count + 1 }
    else { copyInto st "v" st.video_count with video_count := st.video_count + 1 }
  else if ctOf s = "audio" then
    if "audio" ∈ pst then
      if test s = false then
        { copyInto st "a" st.audio_count with audio_count := st.audio_count + 1 }
      else
        match custom s st.audio_count with
        | some m => { applyCustom st m with found := true, audio_count := st.audio_count + 1 }
        | none => { copyInto st "a" st.audio_count with audio_count := st.audio_count + 1 }
    else { copyInto st "a" st.audio_count with audio_count := st.audio_count + 1 }
  else if ctOf s = "subtitle" then
    if "subtitle" ∈ pst then
      if test s = false then
        { copyInto st "s" st.subtitle_count with subtitle_count := st.subtitle_count + 1 }
      else
        match custom s st.subtitle_count with
        | some m => { applyCustom st m with found := true, subtitle_count := st.subtitle_count + 1 }
        | none => { copyInto st "s" st.subtitle_count with subtitle_count := st.subtitle_count + 1 }
    else { copyInto st "s" st.subtitle_count with subtitle_count := st.subtitle_count + 1 }
  else if ctOf s = "data" then
    if "data" ∈ pst then
      if test s = false then
        { copyInto st "d" st.data_count with data_count := st.data_count + 1 }
      else
        match custom s st.data_count with
        | some m => { applyCustom st m with found := true, data_count := st.data_count + 1 }
        | none => { copyInto st "d" st.data_count with data_count := st.data_count + 1 }
    else { copyInto st "d" st.data_count with data_count := st.data_count + 1 }
  else if ctOf s = "attachment" then
    if "attachment" ∈ pst then
      if test s = false then
        { copyInto st "t" st.attachment_count with attachment_count := st.attachment_count + 1 }
      else
        match custom s st.attachment_count with
        | some m => { applyCustom st m with found := true, attachment_count := st.attachment_count + 1 }
        | none => { copyInto st "t" st.attachment_count with attachment_count := st.attachment_count + 1 }
    else { copyInto st "t" st.attachment_count with attachment_count := st.attachment_count + 1 }
  else st

/-- __set_stream_mapping: with no probed streams return False at once (the
stored directive lists are left as they were); otherwise reset counters,
directive lists and the found flag and fold the loop body over the streams
in probe order, returning the final state and the found flag. -/
def set_stream_mapping (pst : List String) (test : PStream → Bool)
    (custom : PStream → Nat → Option MappingDict) (probe : ProbeData)
    (prior : MapState) : MapState × Bool :=
  if probe.streams.isEmpty then (prior, false)
  else
    let fin := probe.streams.foldl (mapStep pst test custom) initMapState
    (fin, fin.found)

/-- streams_need_processing: the boolean result of a full mapping pass. -/
def streams_need_processing (pst : List String) (test : PStream → Bool)
    (custom : PStream → Nat → Option MappingDict) (probe : ProbeData)
    (prior : MapState) : Bool :=
  (set_stream_mapping pst test custom probe prior).2

/-- A full mapping pass started from the freshly reset state. -/
def runMap (pst : List String) (test : PStream → Bool)
    (custom : PStream → Nat → Option MappingDict) (l : List PStream) : MapState :=
  l.foldl (mapStep pst test custom) initMapState

/-- The number of streams of a recognized kind inside a list, in probe
order; the type-relative ordinal a stream receives is this count over the
streams before it. -/
def countKind (l : List PStream) (k : StreamKind) : Nat :=
  l.countP (fun s => decide (recognizedKind s = some k))

/-! Option-list assembly (the __build_args part of StreamMapper).
Python aliasing is modelled explicitly: shared holds the contents of the
list object the caller passed in, live holds the contents of the list
object the local variable options currently refers to, and aliased records
whether they are still the same object.  The dedup branch of the positional
loop rebinds the local variable to a freshly built list, which clears
aliased; every in-place mutation (append, extend, index assignment) reaches
shared only while aliased still holds. -/

structure ArgsBuild where
  shared : List String
  live : List String
  aliased : Bool
deriving DecidableEq

/-- One iteration of the positional loop of __build_args. -/
def posStep (st : ArgsBuild) (a : String) : ArgsBuild :=
  if a ∈ st.live then
    { st with live := (st.live.filter (fun x => decide (x ≠ a))) ++ [a], aliased := false }
  else
    { shared := if st.aliased then st.shared ++ [a] else st.shared,
      live := st.live ++ [a], aliased := st.aliased }

/-- One iteration of the keyword loop of __build_args: replace the token
after the first occurrence of the flag in place, or append the pair. -/
def kwStep (st : ArgsBuild) (kv : String × String) : ArgsBuild :=
  if kv.1 ∈ st.live then
    let i := st.live.indexOf kv.1
    let nl := (st.live.set i kv.1).set (i + 1) kv.2
    { shared := if st.aliased then nl else st.shared, live := nl, aliased := st.aliased }
  else
    let nl := st.live ++ [kv.1, kv.2]
    { shared := if st.aliased then nl else st.shared, live := nl, aliased := st.aliased }

/-- __build_args over a group: positional tokens first, then keyword pairs
in insertion order.  The method returns None in Python; what the caller can
observe afterwards is the shared component. -/
def build_args (options args : List String) (kwargs : List (String × String)) : ArgsBuild :=
  kwargs.foldl kwStep (args.foldl posStep { shared := options, live := options, aliased := true })

/-- Follows the words of the spec for applyOverrides: a present positional
token is removed and re-appended, an absent one appended; a present flag
has the token after it replaced in place, an absent flag is appended with
its value, and the resulting group is returned. -/
def applyOverridesSpec (group pos : List String) (named : List (String × String)) : List String :=
  let g1 := pos.foldl
    (fun g a => if a ∈ g then (g.filter (fun x => decide (x ≠ a))) ++ [a] else g ++ [a]) group
  named.foldl
    (fun g kv =>
      if kv.1 ∈ g then (g.set (g.indexOf kv.1) kv.1).set (g.indexOf kv.1 + 1) kv.2
      else g ++ [kv.1, kv.2]) g1

/-- The option groups, path slots and directive lists of a StreamMapper. -/
structure StreamMapper where
  input_file : String
  output_file : String
  generic_options : List String
  main_options : List String
  advanced_options : List String
  stream_mapping : List String
  stream_encoding : List String
deriving DecidableEq

/-- The defaults established by StreamMapper.__init__. -/
def defaultMapper : StreamMapper :=
  { input_file := "", output_file := "",
    generic_options := ["-hide_banner", "-loglevel", "info"],
    main_options := [],
    advanced_options := ["-strict", "-2", "-max_muxing_queue_size", "4096"],
    stream_mapping := [], stream_encoding := [] }

/-- set_ffmpeg_generic_options: run __build_args against the generic group;
only the caller-visible shared list survives in the object. -/
def set_ffmpeg_generic_options (m : StreamMapper) (args : List String)
    (kwargs : List (String × String)) : StreamMapper :=
  { m with generic_options := (build_args m.generic_options args kwargs).shared }

def set_ffmpeg_main_options (m : StreamMapper) (args : List String)
    (kwargs : List (String × String)) : StreamMapper :=
  { m with main_options := (build_args m.main_options args kwargs).shared }

def set_ffmpeg_advanced_options (m : StreamMapper) (args : List String)
    (kwargs : List (String × String)) : StreamMapper :=
  { m with advanced_options := (build_args m.advanced_options args kwargs).shared }

/-- set_output_null on a POSIX host: the output path becomes the dash
discard target (Windows would use NUL) and the main group is overridden
with the null format flag pair. -/
def set_output_null (m : StreamMapper) : StreamMapper :=
  { m with
    output_file := "-"
    main_options := (build_args m.main_options [] [("-f", "null")]).shared }

/-- get_ffmpeg_args: generic options, main options, the input flag and
path (raising when no input path is set), advanced options, the selection
directives, the codec directives, then the output: bare when it is the
dash discard target, otherwise behind the force-overwrite flag (raising
when no output path is set).  Python truthiness of the path strings is the
comparison against the empty string. -/
def get_ffmpeg_args (m : StreamMapper) : Except String (List String) :=
  let args := ([] : List String) ++ m.generic_options ++ m.main_options
  if m.input_file = "" then .error "Input file has not been set"
  else
    let args := args ++ ["-i", m.input_file] ++ m.advanced_options
      ++ m.stream_mapping ++ m.stream_encoding
    if m.output_file = "" then .error "Output file has not been set"
    else if m.output_file = "-" then .ok (args ++ [m.output_file])
    else .ok (args ++ ["-y", m.output_file])

/-! Plugin model (plugin.py): file_has_metadata. -/

/-- Membership of a stream in one codec_type category, as tested by the list
comprehensions of file_has_metadata: the codec_type key is present and its
value equals the category string exactly. -/
def hasCT (s : PStream) (ct : String) : Bool :=
  decide (pGet s "codec_type" = some (JVal.s ct))

/-- The direct per-stream test of file_has_metadata (line 51): the searched
key is present in the stream dictionary and the searched value passes the
Python membership test against whatever is stored there. -/
def streamDirect (s : PStream) (mkey mval : String) : Bool :=
  match pGet s mkey with
  | some v => JVal.pyMem mval v
  | none => false

/-- The flattened format mapping (lines 52 to 55): scalar entries of the
format dictionary, updated in order with the entries of every nested
dictionary value. -/
def flattenFormat (probe_format : List (String × JVal)) : List (String × String) :=
  let probe_format_d := probe_format.filter (fun p => p.2.isDict)
  let probe_format_kv := (probe_format.filter (fun p => !p.2.isDict)).map
    (fun p => (p.1, p.2.strVal))
  probe_format_d.foldl (fun acc p => dupdate acc p.2.dictEntries) probe_format_kv

/-- The merged tag dictionary of one codec_type category (the dictionary
comprehension inside each try block): fold the tags of every stream of the
category together, later streams shadowing equal keys; none models the
KeyError raised as soon as one stream of the category has no tags entry,
which aborts the whole comprehension.  Tag values coming from probed JSON
are plain strings, so the comprehension filter dropping nested dictionary
values keeps everything.  tagsFold merges one stream into the accumulated
dictionary; catTags folds it over the streams of the category. -/
def tagsFold (acc : Option (List (String × String))) (s : PStream) :
    Option (List (String × String)) :=
  match acc, pGet s "tags" with
  | some d, some (.d es) => some (dupdate d es)
  | _, _ => none

def catTags (ps : List PStream) (ct : String) : Option (List (String × String)) :=
  (ps.filter (fun s => hasCT s ct)).foldl tagsFold (some [])

/-- The per-entry match test shared by the format scan and the three tag
scans: the searched key is a substring of the lower-cased entry key and the
searched value is a substring of the raw entry value. -/
def kvMatch (mkey mval : String) (p : String × String) : Bool :=
  strIn mkey (pyLower p.1) && strIn mval p.2

/-- Truthiness of one tag-scan result: the sentinel empty string assigned on
KeyError (none here) is falsy, a match list is truthy when non-empty. -/
def truthyOpt : Option (List (String × String)) → Bool
  | none => false
  | some l => !l.isEmpty

/-- file_has_metadata: the direct scan over video streams, the flattened
format scan, and the tag scans over attachment, video and audio streams;
the result is the truthiness of the disjunction at line 80.  The path
argument is only logged in the source. -/
def file_has_metadata (path : String) (probe_streams : List PStream)
    (probe_format : List (String × JVal)) (mkey mval : String) : Bool :=
  let streams := probe_streams.filter (fun s => hasCT s "video")
  let file_has_metadata_key := streams.filter (fun s => streamDirect s mkey mval)
  let file_has_metadata_key_fmt := (flattenFormat probe_format).filter (kvMatch mkey mval)
  let ast := (catTags probe_streams "attachment").map (fun l => l.filter (kvMatch mkey mval))
  let vst := (catTags probe_streams "video").map (fun l => l.filter (kvMatch mkey mval))
  let aust := (catTags probe_streams "audio").map (fun l => l.filter (kvMatch mkey mval))
  !file_has_metadata_key.isEmpty || !file_has_metadata_key_fmt.isEmpty ||
    truthyOpt ast || truthyOpt vst || truthyOpt aust

/-! Derived forms used to state and prove the claims about the mapping
loop. -/

/-- The loop body of __set_stream_mapping expressed once, parameterized by
the recognized kind; mapStep on a stream of recognized kind k agrees with
this (proved below). -/
def incCount (st : MapState) (k : StreamKind) : MapState :=
  match k with
  | .video => { st with video_count := st.video_count + 1 }
  | .audio => { st with audio_count := st.audio_count + 1 }
  | .subtitle => { st with subtitle_count := st.subtitle_count + 1 }
  | .data => { st with data_count := st.data_count + 1 }
  | .attachment => { st with attachment_count := st.attachment_count + 1 }

def kindStep (pst : List String) (test : PStream → Bool)
    (custom : PStream → Nat → Option MappingDict) (k : StreamKind)
    (st : MapState) (s : PStream) : MapState :=
  if kindName k ∈ pst then
    if test s = false then incCount (copyInto st (kindIdent k) (kindCount st k)) k
    else
      match custom s (kindCount st k) with
      | some m => { incCount (applyCustom st m) k with found := true }
      | none => incCount (copyInto st (kindIdent k) (kindCount st k)) k
  else incCount (copyInto st (kindIdent k) (kindCount st k)) k

/-- The selection tokens one stream of recognized kind k contributes when
processed at type-relative ordinal n. -/
def emittedSel (pst : List String) (test : PStream → Bool)
    (custom : PStream → Nat → Option MappingDict) (s : PStream)
    (k : StreamKind) (n : Nat) : List String :=
  if kindName k ∈ pst then
    if test s = false then ["-map", "0:" ++ kindIdent k ++ ":" ++ toString n]
    else
      match custom s n with
      | some m => m.stream_mapping
      | none => ["-map", "0:" ++ kindIdent k ++ ":" ++ toString n]
  else ["-map", "0:" ++ kindIdent k ++ ":" ++ toString n]

/-- The codec tokens one stream of recognized kind k contributes when
processed at type-relative ordinal n. -/
def emittedEnc (pst : List String) (test : PStream → Bool)
    (custom : PStream → Nat → Option MappingDict) (s : PStream)
    (k : StreamKind) (n : Nat) : List String :=
  if kindName k ∈ pst then
    if test s = false then ["-c:" ++ kindIdent k ++ ":" ++ toString n, "copy"]
    else
      match custom s n with
      | some m => m.stream_encoding
      | none => ["-c:" ++ kindIdent k ++ ":" ++ toString n, "copy"]
  else ["-c:" ++ kindIdent k ++ ":" ++ toString n, "copy"]

/-- Whether the stream handled at state st triggers the custom-mapping
branch: recognized kind configured for processing, predicate true, and a
truthy mapping dictionary returned at the current ordinal of that kind. -/
def procHere (pst : List String) (test : PStream → Bool)
    (custom : PStream → Nat → Option MappingDict) (st : MapState) (s : PStream) : Bool :=
  match recognizedKind s with
  | some k => decide (kindName k ∈ pst) && test s && (custom s (kindCount st k)).isSome
  | none => false

/-- Whether some stream of the list triggers the custom-mapping branch when
the loop starts at state st. -/
def anyProc (pst : List String) (test : PStream → Bool)
    (custom : PStream → Nat → Option MappingDict) (st : MapState) : List PStream → Bool
  | [] => false
  | s :: rest =>
    procHere pst test custom st s ||
      anyProc pst test custom (mapStep pst test custom st s) rest

/-! Concrete fixtures for witnesses and counterexamples. -/

def testTrue : PStream → Bool := fun _ => true

def testFalse : PStream → Bool := fun _ => false

def customNone : PStream → Nat → Option MappingDict := fun _ _ => none

def customX265 : PStream → Nat → Option MappingDict :=
  fun _ _ => some { stream_mapping := ["-map", "0:v:0"], stream_encoding := ["-c:v:0", "libx265"] }

def sVid : PStream := [("codec_type", JVal.s "video")]

def sAud : PStream := [("codec_type", JVal.s "audio")]

def sNone : PStream := [("codec_name", JVal.s "hevc")]

/-- Environment whose child process exits with status 2 while printing
clean, non-empty, decodable output. -/
def envErrExit : ProbeEnv :=
  { pathExists := fun _ => true, guessType := fun _ => none,
    run := fun _ => { returncode := 2, out := some "fine" },
    parseJson := fun _ => none }

/-- Probe data as parsed for the file /a. -/
def dataA : ProbeData :=
  { format := [("filename", JVal.s "/a")], streams := [sVid] }

/-- Environment where /a exists, is a video, probes cleanly and parses to
dataA, while every other path does not exist. -/
def envA : ProbeEnv :=
  { pathExists := fun p => decide (p = "/a"),
    guessType := fun _ => some "video/x-matroska",
    run := fun _ => { returncode := 0, out := some "probed" },
    parseJson := fun _ => some dataA }

/-- Environment where every path exists but probing yields empty output. -/
def envEmptyOut : ProbeEnv :=
  { pathExists := fun _ => true,
    guessType := fun _ => some "video/mp4",
    run := fun _ => { returncode := 0, out := some "" },
    parseJson := fun _ => none }

/-! Auxiliary lemmas about the mapping state. -/

theorem incCount_mapping (st : MapState) (k : StreamKind) :
    (incCount st k).stream_mapping = st.stream_mapping := by
  cases k <;> rfl

theorem incCount_encoding (st : MapState) (k : StreamKind) :
    (incCount st k).stream_encoding = st.stream_encoding := by
  cases k <;> rfl

theorem incCount_found (st : MapState) (k : StreamKind) :
    (incCount st k).found = st.found := by
  cases k <;> rfl

theorem incCount_count (st : MapState) (k k' : StreamKind) :
    kindCount (incCount st k) k' = kindCount st k' + (if k' = k then 1 else 0) := by
  cases k <;> cases k' <;> simp [incCount, kindCount]

theorem copyInto_count (st : MapState) (tid : String) (n : Nat) (k : StreamKind) :
    kindCount (copyInto st tid n) k = kindCount st k := by
  cases k <;> rfl

theorem applyCustom_count (st : MapState) (m : MappingDict) (k : StreamKind) :
    kindCount (applyCustom st m) k = kindCount st k := by
  cases k <;> rfl

theorem foundSet_count (st : MapState) (b : Bool) (k : StreamKind) :
    kindCount { st with found := b } k = kindCount st k := by
  cases k <;> rfl

theorem ct_of_recognized {s : PStream} {k : StreamKind} (h : recognizedKind s = some k) :
    ctOf s = kindName k := by
  unfold recognizedKind at h
  split_ifs at h with h1 h2 h3 h4 h5 <;>
    first
      | (injection h with h'; subst h'; assumption)
      | (cases h)

theorem mapStep_unrecognized {pst : List String} {test : PStream → Bool}
    {custom : PStream → Nat → Option MappingDict} {st : MapState} {s : PStream}
    (h : recognizedKind s = none) : mapStep pst test custom st s = st := by
  unfold recognizedKind at h
  split_ifs at h with h1 h2 h3 h4 h5
  simp [mapStep, h1, h2, h3, h4, h5]

theorem mapStep_eq_kindStep (pst : List String) (test : PStream → Bool)
    (custom : PStream → Nat → Option MappingDict) (st : MapState) (s : PStream)
    (k : StreamKind) (h : recognizedKind s = some k) :
    mapStep pst test custom st s = kindStep pst test custom k st s := by
  have hct : ctOf s = kindName k := ct_of_recognized h
  cases k
  case video =>
    simp only [kindName] at hct
    simp [mapStep, kindStep, hct, kindName, kindIdent, kindCount, incCount, copyInto, applyCustom]
  case audio =>
    simp only [kindName] at hct
    simp [mapStep, kindStep, hct, kindName, kindIdent, kindCount, incCount, copyInto, applyCustom]
  case subtitle =>
    simp only [kindName] at hct
    simp [mapStep, kindStep, hct, kindName, kindIdent, kindCount, incCount, copyInto, applyCustom]
  case data =>
    simp only [kindName] at hct
    simp [mapStep, kindStep, hct, kindName, kindIdent, kindCount, incCount, copyInto, applyCustom]
  case attachment =>
    simp only [kindName] at hct
    simp [mapStep, kindStep, hct, kindName, kindIdent, kindCount, incCount, copyInto, applyCustom]

theorem kindStep_mapping (pst : List String) (test : PStream → Bool)
    (custom : PStream → Nat → Option MappingDict) (k : StreamKind)
    (st : MapState) (s : PStream) :
    (kindStep pst test custom k st s).stream_mapping
      = st.stream_mapping ++ emittedSel pst test custom s k (kindCount st k) := by
  unfold kindStep emittedSel
  split_ifs with h1 h2
  · simp [incCount_mapping, copyInto]
  · cases hc : custom s (kindCount st k) <;>
      simp [hc, incCount_mapping, copyInto, applyCustom]
  · simp [incCount_mapping, copyInto]

theorem kindStep_encoding (pst : List String) (test : PStream → Bool)
    (custom : PStream → Nat → Option MappingDict) (k : StreamKind)
    (st : MapState) (s : PStream) :
    (kindStep pst test custom k st s).stream_encoding
      = st.stream_encoding ++ emittedEnc pst test custom s k (kindCount st k) := by
  unfold kindStep emittedEnc
  split_ifs with h1 h2
  · simp [incCount_encoding, copyInto]
  · cases hc : custom s (kindCount st k) <;>
      simp [hc, incCount_encoding, copyInto, applyCustom]
  · simp [incCount_encoding, copyInto]

theorem kindStep_count (pst : List String) (test : PStream → Bool)
    (custom : PStream → Nat → Option MappingDict) (k : StreamKind)
    (st : MapState) (s : PStream) (k' : StreamKind) :
    kindCount (kindStep pst test custom k st s) k'
      = kindCount st k' + (if k' = k then 1 else 0) := by
  by_cases h1 : kindName k ∈ pst
  · by_cases h2 : test s = false
    · simp [kindStep, h1, h2, incCount_count, copyInto_count]
    · cases hc : custom s (kindCount st k) with
      | none => simp [kindStep, h1, h2, hc, incCount_count, copyInto_count]
      | some m => simp [kindStep, h1, h2, hc, incCount_count, applyCustom_count, foundSet_count]
  · simp [kindStep, h1, incCount_count, copyInto_count]

theorem kindStep_found (pst : List String) (test : PStream → Bool)
    (custom : PStream → Nat → Option MappingDict) (k : StreamKind)
    (st : MapState) (s : PStream) :
    (kindStep pst test custom k st s).found
      = (st.found || (decide (kindName k ∈ pst) && test s
          && (custom s (kindCount st k)).isSome)) := by
  unfold kindStep
  split_ifs with h1 h2
  · simp [incCount_found, copyInto, h1, h2]
  · cases hc : custom s (kindCount st k) <;>
      simp_all [incCount_found, copyInto, applyCustom]
  · simp [incCount_found, copyInto, h1]

theorem mapStep_count (pst : List String) (test : PStream → Bool)
    (custom : PStream → Nat → Option MappingDict) (st : MapState) (s : PStream)
    (k : StreamKind) :
    kindCount (mapStep pst test custom st s) k
      = kindCount st k + (if recognizedKind s = some k then 1 else 0) := by
  cases h : recognizedKind s with
  | none => rw [mapStep_unrecognized h]; simp [h]
  | some k0 =>
    rw [mapStep_eq_kindStep pst test custom st s k0 h, kindStep_count]
    by_cases hk : k = k0
    · subst hk; simp [h]
    · simp [h, hk, Ne.symm hk]

theorem mapStep_found (pst : List String) (test : PStream → Bool)
    (custom : PStream → Nat → Option MappingDict) (st : MapState) (s : PStream) :
    (mapStep pst test custom st s).found
      = (st.found || procHere pst test custom st s) := by
  cases h : recognizedKind s with
  | none => rw [mapStep_unrecognized h]; simp [procHere, h]
  | some k =>
    rw [mapStep_eq_kindStep pst test custom st s k h, kindStep_found]
    simp [procHere, h]

theorem foldl_count (pst : List String) (test : PStream → Bool)
    (custom : PStream → Nat → Option MappingDict) (l : List PStream)
    (st : MapState) (k : StreamKind) :
    kindCount (l.foldl (mapStep pst test custom) st) k = kindCount st k + countKind l k := by
  induction l generalizing st with
  | nil => simp [countKind]
  | cons a l ih =>
    simp only [List.foldl_cons, ih, mapStep_count, countKind, List.countP_cons]
    by_cases h : recognizedKind a = some k <;> simp [h] <;> omega

theorem runMap_count (pst : List String) (test : PStream → Bool)
    (custom : PStream → Nat → Option MappingDict) (l : List PStream) (k : StreamKind) :
    kindCount (runMap pst test custom l) k = countKind l k := by
  have h := foldl_count pst test custom l initMapState k
  have h0 : kindCount initMapState k = 0 := by cases k <;> rfl
  rw [runMap, h, h0, Nat.zero_add]

theorem foldl_found (pst : List String) (test : PStream → Bool)
    (custom : PStream → Nat → Option MappingDict) (l : List PStream) (st : MapState) :
    (l.foldl (mapStep pst test custom) st).found
      = (st.found || anyProc pst test custom st l) := by
  induction l generalizing st with
  | nil => simp [anyProc]
  | cons a l ih =>
    simp only [List.foldl_cons, ih, anyProc, mapStep_found, Bool.or_assoc]

theorem anyProc_iff (pst : List String) (test : PStream → Bool)
    (custom : PStream → Nat → Option MappingDict) (l : List PStream) (st : MapState) :
    anyProc pst test custom st l = true ↔
      ∃ pre s post, l = pre ++ s :: post ∧
        procHere pst test custom (pre.foldl (mapStep pst test custom) st) s = true := by
  induction l generalizing st with
  | nil =>
    simp only [anyProc]
    constructor
    · intro h; cases h
    · rintro ⟨pre, s, post, h, -⟩
      exact absurd h (by simp)
  | cons a l ih =>
    simp only [anyProc, Bool.or_eq_true, ih]
    constructor
    · rintro (h | ⟨pre, s, post, hdecomp, hp⟩)
      · exact ⟨[], a, l, rfl, h⟩
      · exact ⟨a :: pre, s, post, by simp [hdecomp], by simpa using hp⟩
    · rintro ⟨pre, s, post, hdecomp, hp⟩
      cases pre with
      | nil =>
        simp only [List.nil_append] at hdecomp
        injection hdecomp with h1 h2
        subst h1
        exact Or.inl (by simpa using hp)
      | cons b pre' =>
        simp only [List.cons_append] at hdecomp
        injection hdecomp with h1 h2
        subst h1
        exact Or.inr ⟨pre', s, post, h2, by simpa using hp⟩

/-! Lemmas for the mapping-pass return value and the tag scans. -/

theorem procHere_iff (pst : List String) (test : PStream → Bool)
    (custom : PStream → Nat → Option MappingDict) (st : MapState) (s : PStream) :
    procHere pst test custom st s = true ↔
      ∃ k, recognizedKind s = some k ∧ kindName k ∈ pst ∧ test s = true ∧
        (custom s (kindCount st k)).isSome = true := by
  cases h : recognizedKind s with
  | none => simp [procHere, h]
  | some k =>
    simp only [procHere, h, Bool.and_eq_true, decide_eq_true_eq]
    constructor
    · rintro ⟨⟨hm, ht⟩, hc⟩
      exact ⟨k, rfl, hm, ht, hc⟩
    · rintro ⟨k', hk', hm, ht, hc⟩
      injection hk' with hk'
      subst hk'
      exact ⟨⟨hm, ht⟩, hc⟩

theorem tagsFold_none (s : PStream) : tagsFold none s = none := by
  unfold tagsFold
  cases pGet s "tags" with
  | none => rfl
  | some v => cases v <;> rfl

theorem foldl_tagsFold_none (l : List PStream) : l.foldl tagsFold none = none := by
  induction l with
  | nil => rfl
  | cons a l ih => rw [List.foldl_cons, tagsFold_none, ih]

theorem foldl_tagsFold_missing {s : PStream} (hs : pGet s "tags" = none) :
    ∀ (l : List PStream) (d : List (String × String)), s ∈ l →
      l.foldl tagsFold (some d) = none := by
  intro l
  induction l with
  | nil => intro d h; cases h
  | cons a l ih =>
    intro d h
    rcases List.mem_cons.mp h with h1 | h1
    · subst h1
      rw [List.foldl_cons]
      have : tagsFold (some d) s = none := by unfold tagsFold; rw [hs]
      rw [this, foldl_tagsFold_none]
    · rw [List.foldl_cons]
      cases hf : tagsFold (some d) a with
      | none => rw [foldl_tagsFold_none]
      | some d' => exact ih d' h1

theorem catTags_none_of_missing {ps : List PStream} {ct : String} {s : PStream}
    (hmem : s ∈ ps) (hct : hasCT s ct = true) (hs : pGet s "tags" = none) :
    catTags ps ct = none := by
  unfold catTags
  exact foldl_tagsFold_missing hs _ _ (List.mem_filter.mpr ⟨hmem, hct⟩)

theorem foldl_init_count (pst : List String) (test : PStream → Bool)
    (custom : PStream → Nat → Option MappingDict) (l : List PStream) (k : StreamKind) :
    kindCount (List.foldl (mapStep pst test custom) initMapState l) k = countKind l k :=
  runMap_count pst test custom l k

theorem streamDirect_iff (s : PStream) (mkey mval : String) :
    streamDirect s mkey mval = true ↔
      ∃ v, pGet s mkey = some v ∧ JVal.pyMem mval v = true := by
  cases h : pGet s mkey <;> simp [streamDirect, h]

theorem filter_not_empty {α : Type} (l : List α) (p : α → Bool) :
    (!(l.filter p).isEmpty) = true ↔ ∃ a ∈ l, p a = true := by
  constructor
  · intro hb
    have hne : l.filter p ≠ [] := by
      intro hnil
      rw [hnil] at hb
      simp at hb
    obtain ⟨a, ha⟩ := List.exists_mem_of_ne_nil _ hne
    exact ⟨a, (List.mem_filter.mp ha).1, (List.mem_filter.mp ha).2⟩
  · rintro ⟨a, hal, hpa⟩
    have hmem : a ∈ l.filter p := List.mem_filter.mpr ⟨hal, hpa⟩
    cases hf : l.filter p with
    | nil => rw [hf] at hmem; cases hmem
    | cons b t => simp [hf]

theorem truthy_tag_scan (ps : List PStream) (ct mkey mval : String) :
    truthyOpt ((catTags ps ct).map (fun l => l.filter (kvMatch mkey mval))) = true ↔
      ∃ l, catTags ps ct = some l ∧
        ∃ p ∈ l, strIn mkey (pyLower p.1) = true ∧ strIn mval p.2 = true := by
  cases h : catTags ps ct with
  | none => simp [truthyOpt, h]
  | some l =>
    simp only [h, Option.map_some', truthyOpt, Option.some.injEq]
    constructor
    · intro hb
      obtain ⟨p, hp, hm⟩ := (filter_not_empty l (kvMatch mkey mval)).mp hb
      exact ⟨l, rfl, p, hp, by simpa [kvMatch, Bool.and_eq_true] using hm⟩
    · rintro ⟨l', hl', p, hp, h1, h2⟩
      cases hl'
      exact (filter_not_empty l (kvMatch mkey mval)).mpr ⟨p, hp, by simp [kvMatch, h1, h2]⟩

/-! The claims. -/

/-- C1: the claim says that every applyOverrides (__build_args) call leaves
its effects visible in the option group afterwards, with a present
positional token moved to the end of the group.  The code rebinds the local
options variable to a fresh list in that branch, so the callers group is
left untouched: on the default generic group, overriding with the already
present positional token -hide_banner leaves the group unchanged, while the
behaviour the spec describes would move the token to the end.  This theorem
evaluates the translated code and the spec-described applyOverridesSpec at
that failing input and shows they disagree. -/
theorem c1_override_not_visible :
    (set_ffmpeg_generic_options defaultMapper ["-hide_banner"] []).generic_options
        = ["-hide_banner", "-loglevel", "info"]
    ∧ applyOverridesSpec ["-hide_banner", "-loglevel", "info"] ["-hide_banner"] []
        = ["-loglevel", "info", "-hide_banner"]
    ∧ (set_ffmpeg_generic_options defaultMapper ["-hide_banner"] []).generic_options
        ≠ applyOverridesSpec ["-hide_banner", "-loglevel", "info"] ["-hide_banner"] [] := by
  refine ⟨by decide, by decide, by decide⟩

/-- C2: get_ffmpeg_args returns exactly the concatenation generic options,
main options, -i and the input path, advanced options, selection directives,
codec directives, then the output (bare when it is the dash discard target,
otherwise -y and the output path), raising a configuration error when no
input path or no output path was set. -/
theorem c2_get_ffmpeg_args (m : StreamMapper) :
    (m.input_file = "" → get_ffmpeg_args m = .error "Input file has not been set")
    ∧ (m.input_file ≠ "" → m.output_file = "" →
        get_ffmpeg_args m = .error "Output file has not been set")
    ∧ (m.input_file ≠ "" → m.output_file ≠ "" →
        get_ffmpeg_args m = .ok (m.generic_options ++ m.main_options
          ++ ["-i", m.input_file] ++ m.advanced_options ++ m.stream_mapping
          ++ m.stream_encoding
          ++ (if m.output_file = "-" then [m.output_file] else ["-y", m.output_file]))) := by
  refine ⟨?_, ?_, ?_⟩
  · intro h
    simp [get_ffmpeg_args, h]
  · intro h1 h2
    simp [get_ffmpeg_args, h1, h2]
  · intro h1 h2
    by_cases h3 : m.output_file = "-" <;> simp [get_ffmpeg_args, h1, h2, h3]

theorem c2_witness :
    get_ffmpeg_args { defaultMapper with input_file := "/in.mkv", output_file := "/out.mp4", stream_mapping := ["-map", "0:v:0"], stream_encoding := ["-c:v:0", "copy"] }
      = .ok ["-hide_banner", "-loglevel", "info", "-i", "/in.mkv", "-strict", "-2",
             "-max_muxing_queue_size", "4096", "-map", "0:v:0", "-c:v:0", "copy",
             "-y", "/out.mp4"] := by
  have h := (c2_get_ffmpeg_args { defaultMapper with input_file := "/in.mkv", output_file := "/out.mp4", stream_mapping := ["-map", "0:v:0"], stream_encoding := ["-c:v:0", "copy"] }).2.2 (by decide) (by decide)
  rw [h]
  rfl

/-- C7 counterexample: the claim says ffprobe_cmd raises exactly when the
output is undecodable, the process signals an error exit, the text error
occurs in the output, or the output is empty.  The code only treats exit
status 1 as an error exit: a run exiting with status 2 whose output is
clean, non-empty and decodable is returned as a success. -/
theorem c7_counterexample :
    (envErrExit.run ("ffprobe" :: ffprobeParams "/f")).returncode ≠ 0
    ∧ ffprobe_cmd envErrExit (ffprobeParams "/f") = .ok "fine" := by
  exact ⟨by decide, rfl⟩

/-- C7 amended: ffprobe_cmd fails exactly when the combined output cannot
be decoded, or the exit status equals 1, or the text error occurs in the
decoded output, or the output is empty; otherwise it returns the raw
decoded output unchanged. -/
theorem c7_error_modes (env : ProbeEnv) (params : List String) :
    ((∃ e, ffprobe_cmd env params = .error e) ↔
      ((env.run ("ffprobe" :: params)).out = none ∨
        ∃ raw, (env.run ("ffprobe" :: params)).out = some raw ∧
          ((env.run ("ffprobe" :: params)).returncode = 1 ∨ strIn "error" raw = true ∨ raw = "")))
    ∧ (∀ raw, (env.run ("ffprobe" :: params)).out = some raw →
        (env.run ("ffprobe" :: params)).returncode ≠ 1 → strIn "error" raw = false →
        raw ≠ "" → ffprobe_cmd env params = .ok raw) := by
  simp only [ffprobe_cmd]
  generalize (env.run ("ffprobe" :: params)) = pr
  obtain ⟨rc, o⟩ := pr
  cases o with
  | none => simp
  | some raw =>
    by_cases h1 : rc = 1 ∨ strIn "error" raw = true
    · rcases h1 with h1 | h1 <;> simp [h1]
    · push_neg at h1
      obtain ⟨hrc, herr⟩ := h1
      by_cases h2 : raw = ""
      · subst h2
        simp [hrc, herr, Bool.not_eq_true]
      · simp [hrc, herr, h2, Bool.not_eq_true]

theorem c7_witness :
    ffprobe_cmd envA (ffprobeParams "/a") = .ok "probed" := by
  exact (c7_error_modes envA (ffprobeParams "/a")).2 "probed" rfl (by decide) (by decide) (by decide)

/-- C8 counterexample: the claim says a failed probe call leaves the
previously established result retrievable.  Probe.file resets the stored
dictionary before any check, so after a successful probe of /a followed by
a failed probe of a missing path, get_probe returns the empty dictionary,
not the previously established data. -/
theorem c8_counterexample :
    (Probe.file envA ["video"] initProbeState "/a").2 = true
    ∧ Probe.get_probe (Probe.file envA ["video"] initProbeState "/a").1 = dataA
    ∧ dataA ≠ emptyProbe
    ∧ (Probe.file envA ["video"] (Probe.file envA ["video"] initProbeState "/a").1 "/missing").2 = false
    ∧ Probe.get_probe
        (Probe.file envA ["video"] (Probe.file envA ["video"] initProbeState "/a").1 "/missing").1
      = emptyProbe := by
  refine ⟨by decide, by decide, by decide, by decide, by decide⟩

/-- C8 amended: get_probe returns the stored probe dictionary; a failed
probe call resets the store to the empty dictionary (the previously
established result is not retrievable), a successful probe call stores the
newly parsed result, a failed set_probe leaves the store unchanged, and
reading the store does not change it, so two reads without an intervening
probe return identical data. -/
theorem c8_stored_result (env : ProbeEnv) (allowed : List String) (st : ProbeState)
    (p : String) (pd : ProbeData) :
    ((Probe.file env allowed st p).2 = false →
        Probe.get_probe (Probe.file env allowed st p).1 = emptyProbe)
    ∧ (∀ d, ffprobe_file env p = .ok d → (Probe.file env allowed st p).2 = true →
        Probe.get_probe (Probe.file env allowed st p).1 = d)
    ∧ ((Probe.set_probe env allowed st pd).2 = none →
        (Probe.set_probe env allowed st pd).1 = st)
    ∧ Probe.get_probe st = st.probe_info := by
  refine ⟨?_, ?_, ?_, rfl⟩
  · intro hfalse
    by_cases h1 : env.pathExists p = false
    · simp [Probe.file, Probe.get_probe, h1]
    · by_cases h2 : testValidMimetype env allowed p = false
      · simp [Probe.file, Probe.get_probe, h1, h2]
      · cases hf : ffprobe_file env p with
        | ok d => simp [Probe.file, h1, h2, hf] at hfalse
        | error e => simp [Probe.file, Probe.get_probe, h1, h2, hf]
  · intro d hd htrue
    by_cases h1 : env.pathExists p = false
    · simp [Probe.file, h1] at htrue
    · by_cases h2 : testValidMimetype env allowed p = false
      · simp [Probe.file, h1, h2] at htrue
      · simp [Probe.file, Probe.get_probe, h1, h2, hd]
  · intro hnone
    by_cases h1 : pdFilename pd = ""
    · simp [Probe.set_probe, h1]
    · by_cases h2 : testValidMimetype env allowed (pdFilename pd) = false
      · simp [Probe.set_probe, h1, h2]
      · simp [Probe.set_probe, h1, h2] at hnone

theorem c8_witness :
    Probe.get_probe (Probe.file envA ["video"] initProbeState "/missing").1 = emptyProbe
    ∧ (Probe.set_probe envA ["video"] initProbeState emptyProbe).1 = initProbeState := by
  exact ⟨(c8_stored_result envA ["video"] initProbeState "/missing" emptyProbe).1 (by decide),
    (c8_stored_result envA ["video"] initProbeState "/missing" emptyProbe).2.2.1 (by decide)⟩

/-- C6: probe and adopt fail softly, never raising across the public
boundary: a missing file, an underivable or disallowed content type, any
failing ffprobe invocation (whose failure modes all surface as the error
branch of ffprobe_file) and adopted metadata without a filename all yield a
falsy result, with the adopted case leaving the state untouched. -/
theorem c6_soft_failures (env : ProbeEnv) (allowed : List String) (st : ProbeState)
    (p : String) (pd : ProbeData) :
    (env.pathExists p = false → Probe.file env allowed st p = (initProbeState, false))
    ∧ (env.guessType p = none → testValidMimetype env allowed p = false)
    ∧ (∀ t, env.guessType p = some t → mimeCategory t ∉ allowed →
        testValidMimetype env allowed p = false)
    ∧ (testValidMimetype env allowed p = false →
        Probe.file env allowed st p = (initProbeState, false))
    ∧ (∀ e, ffprobe_file env p = .error e →
        Probe.file env allowed st p = (initProbeState, false))
    ∧ (pdFilename pd = "" → Probe.set_probe env allowed st pd = (st, none))
    ∧ (pdFilename pd ≠ "" → testValidMimetype env allowed (pdFilename pd) = false →
        Probe.set_probe env allowed st pd = (st, none)) := by
  refine ⟨?_, ?_, ?_, ?_, ?_, ?_, ?_⟩
  · intro h
    simp [Probe.file, h, initProbeState]
  · intro h
    simp [testValidMimetype, h]
  · intro t h1 h2
    simp [testValidMimetype, h1, h2]
  · intro h
    by_cases h1 : env.pathExists p = false <;> simp [Probe.file, h1, h, initProbeState]
  · intro e he
    by_cases h1 : env.pathExists p = false
    · simp [Probe.file, h1, initProbeState]
    · by_cases h2 : testValidMimetype env allowed p = false
      · simp [Probe.file, h1, h2, initProbeState]
      · simp [Probe.file, h1, h2, he, initProbeState]
  · intro h
    simp [Probe.set_probe, h]
  · intro h1 h2
    simp [Probe.set_probe, h1, h2]

theorem c6_witness :
    Probe.file envA ["video"] initProbeState "/missing" = (initProbeState, false)
    ∧ testValidMimetype envErrExit ["video"] "/f" = false
    ∧ testValidMimetype envEmptyOut ["audio"] "/f.mkv" = false
    ∧ Probe.file envErrExit ["video"] initProbeState "/f" = (initProbeState, false)
    ∧ Probe.file envEmptyOut ["video"] initProbeState "/f.mkv" = (initProbeState, false)
    ∧ Probe.set_probe envA ["video"] initProbeState emptyProbe = (initProbeState, none)
    ∧ Probe.set_probe envErrExit ["video"] initProbeState dataA = (initProbeState, none) := by
  refine ⟨(c6_soft_failures envA ["video"] initProbeState "/missing" emptyProbe).1 (by decide),
    (c6_soft_failures envErrExit ["video"] initProbeState "/f" emptyProbe).2.1 rfl,
    (c6_soft_failures envEmptyOut ["audio"] initProbeState "/f.mkv" emptyProbe).2.2.1
      "video/mp4" rfl (by decide),
    (c6_soft_failures envErrExit ["video"] initProbeState "/f" emptyProbe).2.2.2.1 rfl,
    (c6_soft_failures envEmptyOut ["video"] initProbeState "/f.mkv" emptyProbe).2.2.2.2.1
      "No info found" rfl,
    (c6_soft_failures envA ["video"] initProbeState "/missing" emptyProbe).2.2.2.2.2.1 rfl,
    (c6_soft_failures envErrExit ["video"] initProbeState "/f" dataA).2.2.2.2.2.2
      (by decide) rfl⟩

/-- C3: during one mapping pass over streams pre ++ [s], each per-kind
counter after the prefix equals the number of recognized streams of that
kind in the prefix; a stream without a recognized codec_type changes
nothing (no directive, no counter); a recognized stream is handled at the
type-relative ordinal equal to the number of same-kind predecessors (its
copy directive tokens and the ordinal passed to the producer hook both use
that ordinal, as packaged by emittedSel and emittedEnc) and advances
exactly its own counter by one. -/
theorem c3_type_relative_ordinals (pst : List String) (test : PStream → Bool)
    (custom : PStream → Nat → Option MappingDict) (pre : List PStream) (s : PStream) :
    (∀ k, kindCount (runMap pst test custom pre) k = countKind pre k)
    ∧ (recognizedKind s = none →
        mapStep pst test custom (runMap pst test custom pre) s = runMap pst test custom pre)
    ∧ (∀ k, recognizedKind s = some k →
        (∀ k', kindCount (mapStep pst test custom (runMap pst test custom pre) s) k'
            = countKind pre k' + (if k' = k then 1 else 0))
        ∧ (mapStep pst test custom (runMap pst test custom pre) s).stream_mapping
            = (runMap pst test custom pre).stream_mapping
              ++ emittedSel pst test custom s k (countKind pre k)
        ∧ (mapStep pst test custom (runMap pst test custom pre) s).stream_encoding
            = (runMap pst test custom pre).stream_encoding
              ++ emittedEnc pst test custom s k (countKind pre k)) := by
  refine ⟨fun k => runMap_count pst test custom pre k, fun h => mapStep_unrecognized h, ?_⟩
  intro k h
  rw [mapStep_eq_kindStep pst test custom _ s k h]
  refine ⟨fun k' => ?_, ?_, ?_⟩
  · rw [kindStep_count, runMap_count]
  · rw [kindStep_mapping, runMap_count]
  · rw [kindStep_encoding, runMap_count]

theorem c3_witness :
    kindCount (mapStep ["video"] testTrue customNone
        (runMap ["video"] testTrue customNone [sVid]) sAud) StreamKind.audio
      = countKind [sVid] StreamKind.audio + 1
    ∧ (mapStep ["video"] testTrue customNone
        (runMap ["video"] testTrue customNone [sVid]) sAud).stream_mapping
      = (runMap ["video"] testTrue customNone [sVid]).stream_mapping
        ++ emittedSel ["video"] testTrue customNone sAud StreamKind.audio
             (countKind [sVid] StreamKind.audio) := by
  have h := (c3_type_relative_ordinals ["video"] testTrue customNone [sVid] sAud).2.2
    StreamKind.audio (by decide)
  exact ⟨by simpa using h.1 StreamKind.audio, h.2.1⟩

/-- C4: streams_need_processing returns true exactly when some stream of
the probe decomposes the stream list so that its recognized kind is
configured for processing, the predicate returns true on it, and the
producer hook returns a truthy mapping at its type-relative ordinal; with
no streams it returns false (hence it is false whenever every stream fell
to a copy directive). -/
theorem c4_pass_result (pst : List String) (test : PStream → Bool)
    (custom : PStream → Nat → Option MappingDict) (probe : ProbeData) (prior : MapState) :
    (streams_need_processing pst test custom probe prior = true ↔
      ∃ pre s post k, probe.streams = pre ++ s :: post ∧ recognizedKind s = some k ∧
        kindName k ∈ pst ∧ test s = true ∧ (custom s (countKind pre k)).isSome = true)
    ∧ (probe.streams = [] → streams_need_processing pst test custom probe prior = false) := by
  have hempty : probe.streams = [] →
      streams_need_processing pst test custom probe prior = false := by
    intro hnil
    unfold streams_need_processing set_stream_mapping
    rw [hnil]
    rfl
  have hnonempty : probe.streams ≠ [] →
      streams_need_processing pst test custom probe prior
        = anyProc pst test custom initMapState probe.streams := by
    intro hne
    unfold streams_need_processing set_stream_mapping
    have hfalse : probe.streams.isEmpty = false := by
      cases hs : probe.streams with
      | nil => exact absurd hs hne
      | cons a t => rfl
    simp [hfalse, foldl_found, initMapState]
  constructor
  · by_cases he : probe.streams = []
    · rw [hempty he]
      constructor
      · intro hf; cases hf
      · rintro ⟨pre, s, post, k, hd, -⟩
        rw [he] at hd
        exact absurd hd.symm (by cases pre <;> simp)
    · rw [hnonempty he]
      rw [anyProc_iff]
      constructor
      · rintro ⟨pre, s, post, hd, hp⟩
        obtain ⟨k, hk, hm, ht, hc⟩ := (procHere_iff pst test custom _ s).mp hp
        refine ⟨pre, s, post, k, hd, hk, hm, ht, ?_⟩
        rwa [foldl_init_count] at hc
      · rintro ⟨pre, s, post, k, hd, hk, hm, ht, hc⟩
        refine ⟨pre, s, post, hd, ?_⟩
        rw [procHere_iff]
        exact ⟨k, hk, hm, ht, by rwa [foldl_init_count]⟩
  · intro hnil
    exact hempty hnil

theorem c4_witness :
    streams_need_processing ["video"] testTrue customX265
        { format := [], streams := [sVid] } initMapState = true
    ∧ streams_need_processing ["video"] testTrue customX265 emptyProbe initMapState = false := by
  refine ⟨(c4_pass_result ["video"] testTrue customX265
      { format := [], streams := [sVid] } initMapState).1.mpr
        ⟨[], sVid, [], StreamKind.video, rfl, by decide, by decide, rfl, by decide⟩,
    (c4_pass_result ["video"] testTrue customX265 emptyProbe initMapState).2 rfl⟩

/-- C5: a stream of a recognized kind outside the configured processing set
receives exactly the copy directive pair at its type-relative ordinal and
the result does not depend on the predicate or the producer hook (they are
never invoked); a stream of a configured kind on which the predicate is
false receives the same copy pair and the result does not depend on the
producer hook. -/
theorem c5_copy_paths (pst : List String) (test : PStream → Bool)
    (custom : PStream → Nat → Option MappingDict) (st : MapState) (s : PStream)
    (k : StreamKind) (h : recognizedKind s = some k) :
    (kindName k ∉ pst →
      ((mapStep pst test custom st s).stream_mapping
          = st.stream_mapping
            ++ ["-map", "0:" ++ kindIdent k ++ ":" ++ toString (kindCount st k)]
       ∧ (mapStep pst test custom st s).stream_encoding
          = st.stream_encoding
            ++ ["-c:" ++ kindIdent k ++ ":" ++ toString (kindCount st k), "copy"]
       ∧ ∀ (test' : PStream → Bool) (custom' : PStream → Nat → Option MappingDict),
           mapStep pst test' custom' st s = mapStep pst test custom st s))
    ∧ (kindName k ∈ pst → test s = false →
      ((mapStep pst test custom st s).stream_mapping
          = st.stream_mapping
            ++ ["-map", "0:" ++ kindIdent k ++ ":" ++ toString (kindCount st k)]
       ∧ (mapStep pst test custom st s).stream_encoding
          = st.stream_encoding
            ++ ["-c:" ++ kindIdent k ++ ":" ++ toString (kindCount st k), "copy"]
       ∧ ∀ (custom' : PStream → Nat → Option MappingDict),
           mapStep pst test custom' st s = mapStep pst test custom st s)) := by
  constructor
  · intro hmem
    rw [mapStep_eq_kindStep pst test custom st s k h]
    refine ⟨?_, ?_, ?_⟩
    · rw [kindStep_mapping]
      simp [emittedSel, hmem]
    · rw [kindStep_encoding]
      simp [emittedEnc, hmem]
    · intro test' custom'
      rw [mapStep_eq_kindStep pst test' custom' st s k h]
      unfold kindStep
      rw [if_neg hmem, if_neg hmem]
  · intro hmem htf
    rw [mapStep_eq_kindStep pst test custom st s k h]
    refine ⟨?_, ?_, ?_⟩
    · rw [kindStep_mapping]
      simp [emittedSel, hmem, htf]
    · rw [kindStep_encoding]
      simp [emittedEnc, hmem, htf]
    · intro custom'
      rw [mapStep_eq_kindStep pst test custom' st s k h]
      unfold kindStep
      rw [if_pos hmem, if_pos hmem, if_pos htf, if_pos htf]

theorem c5_witness :
    (mapStep [] testTrue customX265 initMapState sVid).stream_mapping = ["-map", "0:v:0"]
    ∧ (mapStep ["video"] testFalse customX265 initMapState sVid).stream_encoding
        = ["-c:v:0", "copy"]
    ∧ mapStep [] testFalse customNone initMapState sVid
        = mapStep [] testTrue customX265 initMapState sVid := by
  have h1 := (c5_copy_paths [] testTrue customX265 initMapState sVid StreamKind.video
    (by decide)).1 (by decide)
  have h2 := (c5_copy_paths ["video"] testFalse customX265 initMapState sVid StreamKind.video
    (by decide)).2 (by decide) rfl
  refine ⟨?_, ?_, h1.2.2 testFalse customNone⟩
  · rw [h1.1]
    decide
  · rw [h2.2.1]
    decide

/-- C9: file_has_metadata is the literal disjunction of five independent
segment matches: the direct video-stream check (searched key present as an
exact field name, searched value tested with the Python membership test
against that field value, a substring test on the strings probed data
holds), the flattened-format check (searched key a substring of the
lower-cased entry key, searched value a substring of the raw entry value),
and the same lower-cased-key and raw-value substring test over the merged
tag dictionaries of the attachment, video and audio stream categories. -/
theorem c9_literal_matching (path : String) (ps : List PStream)
    (fmt : List (String × JVal)) (mkey mval : String) :
    file_has_metadata path ps fmt mkey mval = true ↔
      ((∃ s ∈ ps, hasCT s "video" = true ∧
          ∃ v, pGet s mkey = some v ∧ JVal.pyMem mval v = true)
       ∨ (∃ p ∈ flattenFormat fmt,
            strIn mkey (pyLower p.1) = true ∧ strIn mval p.2 = true)
       ∨ (∃ l, catTags ps "attachment" = some l ∧
            ∃ p ∈ l, strIn mkey (pyLower p.1) = true ∧ strIn mval p.2 = true)
       ∨ (∃ l, catTags ps "video" = some l ∧
            ∃ p ∈ l, strIn mkey (pyLower p.1) = true ∧ strIn mval p.2 = true)
       ∨ (∃ l, catTags ps "audio" = some l ∧
            ∃ p ∈ l, strIn mkey (pyLower p.1) = true ∧ strIn mval p.2 = true)) := by
  unfold file_has_metadata
  simp only [Bool.or_eq_true, or_assoc]
  refine or_congr ?_ (or_congr ?_ (or_congr ?_ (or_congr ?_ ?_)))
  · rw [filter_not_empty]
    constructor
    · rintro ⟨s, hs, hd⟩
      obtain ⟨hsl, hct⟩ := List.mem_filter.mp hs
      exact ⟨s, hsl, hct, (streamDirect_iff s mkey mval).mp hd⟩
    · rintro ⟨s, hsl, hct, hv⟩
      exact ⟨s, List.mem_filter.mpr ⟨hsl, hct⟩, (streamDirect_iff s mkey mval).mpr hv⟩
  · rw [filter_not_empty]
    constructor
    · rintro ⟨p, hp, hm⟩
      exact ⟨p, hp, by simpa [kvMatch, Bool.and_eq_true] using hm⟩
    · rintro ⟨p, hp, h1, h2⟩
      exact ⟨p, hp, by simp [kvMatch, h1, h2]⟩
  · exact truthy_tag_scan ps "attachment" mkey mval
  · exact truthy_tag_scan ps "video" mkey mval
  · exact truthy_tag_scan ps "audio" mkey mval

/-- C10: each per-category tag scan is all-or-nothing: as soon as one
stream of the category has no tags entry, the KeyError aborts the whole
scan and the category contributes no match, even if another stream of the
category carries matching tags; and when two streams of one category share
a tag key, the merged dictionary keeps only the later value, so only the
later streams value can be tested. -/
theorem c10_tag_scan_aborts :
    (∀ (ps : List PStream) (ct mkey mval : String) (s : PStream),
        s ∈ ps → hasCT s ct = true → pGet s "tags" = none →
        truthyOpt ((catTags ps ct).map (fun l => l.filter (kvMatch mkey mval))) = false)
    ∧ (∀ (ct k v1 v2 : String),
        catTags [[("codec_type", JVal.s ct), ("tags", JVal.d [(k, v1)])],
                 [("codec_type", JVal.s ct), ("tags", JVal.d [(k, v2)])]] ct
          = some [(k, v2)]) := by
  constructor
  · intro ps ct mkey mval s hmem hct htags
    rw [catTags_none_of_missing hmem hct htags]
    rfl
  · intro ct k v1 v2
    simp [catTags, hasCT, pGet, tagsFold, dupdate, dinsert, List.filter, List.find?,
      List.foldl, List.any]

theorem c10_witness :
    truthyOpt ((catTags [[("codec_type", JVal.s "audio")],
        [("codec_type", JVal.s "audio"), ("tags", JVal.d [("title", "x")])]] "audio").map
      (fun l => l.filter (kvMatch "title" "x"))) = false := by
  exact c10_tag_scan_aborts.1 _ "audio" "title" "x" [("codec_type", JVal.s "audio")]
    (by decide) (by decide) (by decide)

theorem c9_witness :
    file_has_metadata "/a" [[("codec_type", JVal.s "video"), ("codec_name", JVal.s "hevc10")]]
      [] "codec_name" "hevc" = true := by
  exact (c9_literal_matching "/a"
      [[("codec_type", JVal.s "video"), ("codec_name", JVal.s "hevc10")]]
      [] "codec_name" "hevc").mpr
    (Or.inl ⟨[("codec_type", JVal.s "video"), ("codec_name", JVal.s "hevc10")],
      by decide, by decide, JVal.s "hevc10", by decide, by decide⟩)
